import Mathlib

/-!
A shallow embedding of the pack-registry MCP server (src/server.py) and a
verification of its specified properties: the identifier codec
(sanitize_tool_token, make_tool_name, parse_pack_tool_name), the schema
requirement extractor (dotted_required_paths), the context inspector
(get_by_dotted_path, missing_required_fields), registry loading and
tool-catalog construction (PackRegistry.load and _build_tools), and the
dispatcher branches of handle_call_tool for plan, execute and validate.

Modeling conventions:
 - Python strings are lists of characters.
 - JSON values are the inductive type Json; Python dicts are association
   lists in insertion order, with assignment overwriting in place.
 - Functions that raise exceptions return Except.
 - The clock (utc_now_iso) and the fresh correlation id are passed in as
   parameters; the external artifact generators that the dispatcher routes
   to on a complete context are abstracted as provider parameters.
-/

def chars (s : String) : List Char := s.data

/-! ## JSON values and dict primitives -/

inductive Json where
  | null
  | bool (b : Bool)
  | num (n : Int)
  | str (s : List Char)
  | arr (elems : List Json)
  | obj (fields : List (List Char × Json))

/-- First-match association-list lookup: Python `d.get(k)` / `d[k]`. -/
def dictGet {α : Type} : List (List Char × α) → List Char → Option α
  | [], _ => none
  | (k, v) :: rest, key => if k = key then some v else dictGet rest key

/-- Python `d[k] = v`: overwrite in place if the key is present, else append. -/
def dictPut {α : Type} (d : List (List Char × α)) (key : List Char) (v : α) :
    List (List Char × α) :=
  if d.any (fun kv => kv.1 = key) then
    d.map (fun kv => if kv.1 = key then (key, v) else kv)
  else d ++ [(key, v)]

/-- Python truthiness of a JSON value (`bool(x)`). -/
def Json.truthy : Json → Bool
  | .null => false
  | .bool b => b
  | .num n => n != 0
  | .str s => !s.isEmpty
  | .arr xs => !xs.isEmpty
  | .obj fs => !fs.isEmpty

/-- Truthiness of a `dict.get` result (absent keys behave like None). -/
def optTruthy : Option Json → Bool
  | some v => v.truthy
  | none => false

/-- Lookup of a key on a JSON value that is expected to be an object. -/
def topGet (j : Json) (key : List Char) : Option Json :=
  match j with
  | .obj fs => dictGet fs key
  | _ => none

/-! ## Identifier codec (server.py lines 21-36 and 719-736) -/

/-- The character class of the tool-name regexes: `[a-zA-Z0-9_-]`. -/
def isSafeChar (c : Char) : Bool :=
  ('a' ≤ c && c ≤ 'z') || ('A' ≤ c && c ≤ 'Z') || ('0' ≤ c && c ≤ '9') ||
    c = '_' || c = '-'

/-- Collapse every run of consecutive underscores to a single underscore:
`re.sub(r"_+", "_", value)`. -/
def collapseU : List Char → List Char
  | [] => []
  | [c] => [c]
  | a :: b :: rest =>
    if a = '_' ∧ b = '_' then collapseU (b :: rest) else a :: collapseU (b :: rest)

/-- Python `value.strip("_")`: drop leading and trailing underscores. -/
def stripUnd (l : List Char) : List Char :=
  (((l.dropWhile (fun c => c = '_')).reverse.dropWhile (fun c => c = '_'))).reverse

/-- `sanitize_tool_token` from server.py: replace `.` with `_`, replace every
character outside `[a-zA-Z0-9_-]` with `_` (the source replaces maximal runs
of such characters with one `_`; replacing them one by one gives the same
result after the collapse step), collapse repeated underscores, and strip
leading and trailing underscores. -/
def sanitize_tool_token (value : List Char) : List Char :=
  let v1 := value.map (fun c => if c = '.' then '_' else c)
  let v2 := v1.map (fun c => if isSafeChar c then c else '_')
  stripUnd (collapseU v2)

/-- `make_tool_name`: the f-string `pack__{sanitize_tool_token(pack_id)}__{method}`. -/
def make_tool_name (pack_id method : List Char) : List Char :=
  chars "pack__" ++ sanitize_tool_token pack_id ++ chars "__" ++ method

/-- The five operation kinds of the alternation in the decode regex, in the
order they are written there. -/
def methodNames : List (List Char) :=
  [chars "describe", chars "requirements", chars "plan", chars "execute",
   chars "validate"]

/-- Boolean list-prefix test (by structural comparison). -/
def isPreOf : List Char → List Char → Bool
  | [], _ => true
  | _ :: _, [] => false
  | a :: as, b :: bs => a = b && isPreOf as bs

/-- Boolean list-suffix test. -/
def isSufOf (pat l : List Char) : Bool :=
  isPreOf pat.reverse l.reverse

/-- Strip a literal from the front of a list, or fail. -/
def stripPre : List Char → List Char → Option (List Char)
  | [], l => some l
  | _ :: _, [] => none
  | a :: as, b :: bs => if a = b then stripPre as bs else none

/-- `parse_pack_tool_name` from server.py.  The source matches the anchored
regex `^pack__(?P<spack>[a-zA-Z0-9_-]+)__(?P<method>describe|requirements|
plan|execute|validate)$` and then scans the registry's pack ids for the first
whose sanitized form equals the captured token.  Because no operation kind
contains an underscore and none is a suffix of another, the regex matches
exactly when the name is `pack__` followed by a nonempty all-safe token,
two underscores, and one of the five kinds; that shape is what is decoded
here.  `packs` is the registry's pack-id list in insertion order. -/
def parse_pack_tool_name (toolName : List Char) (packs : List (List Char)) :
    Option (List Char × List Char) :=
  match stripPre (chars "pack__") toolName with
  | none => none
  | some rest =>
    match methodNames.find? (fun m => isSufOf (chars "__" ++ m) rest) with
    | none => none
    | some m =>
      let spack := rest.take (rest.length - (m.length + 2))
      if spack ≠ [] ∧ spack.all isSafeChar then
        match packs.find? (fun pid => sanitize_tool_token pid = spack) with
        | some pid => some (pid, m)
        | none => none
      else none

/-! ## Schema requirement extractor (server.py lines 60-80) -/

/-- `schema.get("type") != "object"` test of `dotted_required_paths`. -/
def typeIsObject (fields : List (List Char × Json)) : Bool :=
  match dictGet fields (chars "type") with
  | some (Json.str s) => s = chars "object"
  | _ => false

/-- `schema.get("properties", {}) or {}`: a missing, empty or non-object
value degrades to the empty dict. -/
def schemaProps (fields : List (List Char × Json)) : List (List Char × Json) :=
  match dictGet fields (chars "properties") with
  | some (Json.obj fs) => fs
  | _ => []

/-- `schema.get("required", []) or []`.  Every manifest schema lists its
required keys as strings, which is the modeled domain. -/
def requiredKeys (fields : List (List Char × Json)) : List (List Char) :=
  match dictGet fields (chars "required") with
  | some (Json.arr xs) =>
    xs.filterMap (fun j => match j with | Json.str s => some s | _ => none)
  | _ => []

/-- The `for key in required` loop body of `dotted_required_paths`: append
the parent path, then (depth-first) the paths of the key's object-typed
subschema, then continue with the remaining keys. -/
def drpKeys (recurse : Json → List Char → List (List Char))
    (props : List (List Char × Json)) :
    List (List Char) → List Char → List (List Char)
  | [], _ => []
  | key :: rest, pre =>
    let parentPath := pre ++ '.' :: key
    let subPaths :=
      match dictGet props key with
      | some (Json.obj sfields) => recurse (Json.obj sfields) parentPath
      | _ => []
    (parentPath :: subPaths) ++ drpKeys recurse props rest pre

/-- `dotted_required_paths` from server.py.  The source recursion descends
into strictly smaller subschema values, so it always terminates on the
finite JSON documents it is given; the explicit recursion budget makes that
termination structural, and every use in this file supplies a budget far
larger than the nesting depth of any schema involved. -/
def dotted_required_paths : Nat → Json → List Char → List (List Char)
  | 0, _, _ => []
  | fuel + 1, schema, pre =>
    match schema with
    | Json.obj fields =>
      if typeIsObject fields then
        drpKeys (dotted_required_paths fuel) (schemaProps fields)
          (requiredKeys fields) pre
      else []
    | _ => []

def schemaFuel : Nat := 1000

/-! ## Context inspector (server.py lines 83-105) -/

/-- Python `dotted[2:].split(".")`: split on every single dot; the empty
string splits to one empty part. -/
def splitDot : List Char → List (List Char)
  | [] => [[]]
  | '.' :: rest => [] :: splitDot rest
  | c :: rest =>
    match splitDot rest with
    | [] => [[c]]
    | g :: gs => (c :: g) :: gs

/-- The walking loop of `get_by_dotted_path`: descend through nested dicts,
failing on a missing key or a non-dict intermediate value. -/
def walkPath : Json → List (List Char) → Bool × Json
  | cur, [] => (true, cur)
  | cur, p :: ps =>
    match cur with
    | Json.obj fields =>
      match dictGet fields p with
      | some v => walkPath v ps
      | none => (false, Json.null)
    | _ => (false, Json.null)

/-- `get_by_dotted_path` from server.py. -/
def get_by_dotted_path (obj : Json) (dotted : List Char) : Bool × Json :=
  if isPreOf (chars "$.") dotted then
    walkPath obj (splitDot (dotted.drop 2))
  else (false, Json.null)

def isNullJson : Json → Bool
  | Json.null => true
  | _ => false

/-- `missing_required_fields` from server.py: the source's accumulation loop
keeps exactly the required paths whose lookup fails or yields None, in the
order of `required_paths`; that loop is `List.filter`. -/
def missing_required_fields (context : Json) (required_paths : List (List Char)) :
    List (List Char) :=
  required_paths.filter (fun path =>
    let r := get_by_dotted_path context path
    !r.1 || isNullJson r.2)

/-! ## Pack (server.py lines 118-162) -/

structure Pack where
  root : List Char
  pack_json : Json
  context_schema : Json
  output_schema : Json
  events_schema : Json
  plan_prompt : List Char
  execute_prompt : List Char
  validate_prompt : List Char

/-- `str(self.pack_json["pack_id"])`; every manifest carries a string
pack_id, which is the modeled domain. -/
def Pack.pack_id (p : Pack) : List Char :=
  match topGet p.pack_json (chars "pack_id") with
  | some (Json.str s) => s
  | _ => []

/-- `str(self.pack_json.get("name", self.pack_id))`. -/
def Pack.displayName (p : Pack) : List Char :=
  match topGet p.pack_json (chars "name") with
  | some (Json.str s) => s
  | some _ => []
  | none => Pack.pack_id p

/-- `str(self.pack_json.get("version", "0.0.0"))`. -/
def Pack.version (p : Pack) : List Char :=
  match topGet p.pack_json (chars "version") with
  | some (Json.str s) => s
  | some _ => []
  | none => chars "0.0.0"

/-- `Pack.required_paths`: extract from the context schema rooted at `$`. -/
def Pack.required_paths (p : Pack) : List (List Char) :=
  dotted_required_paths schemaFuel p.context_schema (chars "$")

def Pack.tool_name (p : Pack) (method : List Char) : List Char :=
  make_tool_name (Pack.pack_id p) method

/-! ## Tool descriptors and catalog construction (server.py lines 108-116
and 220-345) -/

structure PackTool where
  pack_id : List Char
  method : List Char
  name : List Char
  description : List Char
  input_schema : Json
  output_schema : Option Json

def tString : Json := Json.obj [(chars "type", Json.str (chars "string"))]

def tBoolean : Json := Json.obj [(chars "type", Json.str (chars "boolean"))]

def tArrayOf (item : Json) : Json :=
  Json.obj [(chars "type", Json.str (chars "array")), (chars "items", item)]

def tArrayStr : Json := tArrayOf tString

/-- The empty-input schema used for describe and requirements. -/
def emptyObjectSchema : Json :=
  Json.obj [(chars "type", Json.str (chars "object")),
            (chars "properties", Json.obj []),
            (chars "additionalProperties", Json.bool false)]

def describeOutputSchema : Json :=
  Json.obj
    [(chars "type", Json.str (chars "object")),
     (chars "properties", Json.obj
       [(chars "pack_id", tString), (chars "name", tString),
        (chars "version", tString), (chars "summary", tString),
        (chars "domain_tags", tArrayStr), (chars "primary_outcomes", tArrayStr),
        (chars "trigger_hints", tArrayStr)]),
     (chars "required", Json.arr
       [Json.str (chars "pack_id"), Json.str (chars "name"),
        Json.str (chars "version"), Json.str (chars "summary"),
        Json.str (chars "domain_tags"), Json.str (chars "primary_outcomes"),
        Json.str (chars "trigger_hints")]),
     (chars "additionalProperties", Json.bool false)]

def requirementsOutputSchema : Json :=
  Json.obj
    [(chars "type", Json.str (chars "object")),
     (chars "properties", Json.obj
       [(chars "required_fields", tArrayStr),
        (chars "recommended_fields", tArrayStr),
        (chars "notes", tArrayStr)]),
     (chars "required", Json.arr
       [Json.str (chars "required_fields"), Json.str (chars "recommended_fields"),
        Json.str (chars "notes")]),
     (chars "additionalProperties", Json.bool false)]

def planStepSchema : Json :=
  Json.obj
    [(chars "type", Json.str (chars "object")),
     (chars "properties", Json.obj
       [(chars "step_id", tString), (chars "title", tString),
        (chars "rationale", tString), (chars "success_check", tString),
        (chars "inputs_needed", tArrayStr), (chars "outputs_produced", tArrayStr)]),
     (chars "required", Json.arr
       [Json.str (chars "step_id"), Json.str (chars "title"),
        Json.str (chars "rationale"), Json.str (chars "success_check"),
        Json.str (chars "inputs_needed"), Json.str (chars "outputs_produced")]),
     (chars "additionalProperties", Json.bool false)]

def planOutputSchema : Json :=
  Json.obj
    [(chars "type", Json.str (chars "object")),
     (chars "properties", Json.obj
       [(chars "needs_context", tBoolean),
        (chars "missing_fields", tArrayStr),
        (chars "assumptions", tArrayStr),
        (chars "plan_steps", tArrayOf planStepSchema)]),
     (chars "required", Json.arr
       [Json.str (chars "needs_context"), Json.str (chars "missing_fields"),
        Json.str (chars "assumptions"), Json.str (chars "plan_steps")]),
     (chars "additionalProperties", Json.bool false)]

def qualityGateSchema : Json :=
  Json.obj
    [(chars "type", Json.str (chars "object")),
     (chars "properties", Json.obj
       [(chars "gate", tString),
        (chars "status", Json.obj
          [(chars "type", Json.str (chars "string")),
           (chars "enum", Json.arr [Json.str (chars "pass"), Json.str (chars "fail")])]),
        (chars "evidence", tString)]),
     (chars "required", Json.arr
       [Json.str (chars "gate"), Json.str (chars "status"),
        Json.str (chars "evidence")]),
     (chars "additionalProperties", Json.bool false)]

def validateOutputSchema : Json :=
  Json.obj
    [(chars "type", Json.str (chars "object")),
     (chars "properties", Json.obj
       [(chars "passed", tBoolean),
        (chars "issues", tArrayStr),
        (chars "fixes", tArrayStr),
        (chars "quality_gates", tArrayOf qualityGateSchema)]),
     (chars "required", Json.arr
       [Json.str (chars "passed"), Json.str (chars "issues"),
        Json.str (chars "fixes"), Json.str (chars "quality_gates")]),
     (chars "additionalProperties", Json.bool false)]

def validateInputSchema (pack : Pack) : Json :=
  Json.obj
    [(chars "type", Json.str (chars "object")),
     (chars "properties", Json.obj
       [(chars "context", pack.context_schema),
        (chars "outputs", pack.output_schema)]),
     (chars "required", Json.arr
       [Json.str (chars "context"), Json.str (chars "outputs")]),
     (chars "additionalProperties", Json.bool false)]

def describeTool (pack_id : List Char) (pack : Pack) : PackTool :=
  { pack_id := pack_id, method := chars "describe",
    name := Pack.tool_name pack (chars "describe"),
    description := chars "Describe pack " ++ Pack.displayName pack ++
      chars " (" ++ Pack.version pack ++ chars ").",
    input_schema := emptyObjectSchema,
    output_schema := some describeOutputSchema }

def requirementsTool (pack_id : List Char) (pack : Pack) : PackTool :=
  { pack_id := pack_id, method := chars "requirements",
    name := Pack.tool_name pack (chars "requirements"),
    description := chars "Return required and recommended context fields for pack " ++
      Pack.displayName pack ++ chars ".",
    input_schema := emptyObjectSchema,
    output_schema := some requirementsOutputSchema }

def planTool (pack_id : List Char) (pack : Pack) : PackTool :=
  { pack_id := pack_id, method := chars "plan",
    name := Pack.tool_name pack (chars "plan"),
    description := chars "Create a funnel improvement plan for " ++
      Pack.displayName pack ++
      chars ". Returns needs_context if required fields are missing.",
    input_schema := pack.context_schema,
    output_schema := some planOutputSchema }

def executeTool (pack_id : List Char) (pack : Pack) : PackTool :=
  { pack_id := pack_id, method := chars "execute",
    name := Pack.tool_name pack (chars "execute"),
    description := chars "Generate funnel artifacts (activation definition, instrumentation plan, hypotheses, experiments) for " ++
      Pack.displayName pack ++ chars ".",
    input_schema := pack.context_schema,
    output_schema := some pack.output_schema }

def validateTool (pack_id : List Char) (pack : Pack) : PackTool :=
  { pack_id := pack_id, method := chars "validate",
    name := Pack.tool_name pack (chars "validate"),
    description := chars "Validate outputs for " ++ Pack.displayName pack ++
      chars " against quality gates.",
    input_schema := validateInputSchema pack,
    output_schema := some validateOutputSchema }

/-- `PackRegistry._build_tools`: rebuild the tool dict from scratch, five
descriptors per pack in registration order.  Dict assignment silently
overwrites an existing key. -/
def build_tools (packs : List (List Char × Pack)) : List (List Char × PackTool) :=
  packs.foldl (fun tools kv =>
    let pack_id := kv.1
    let pack := kv.2
    let tools := dictPut tools (Pack.tool_name pack (chars "describe"))
      (describeTool pack_id pack)
    let tools := dictPut tools (Pack.tool_name pack (chars "requirements"))
      (requirementsTool pack_id pack)
    let tools := dictPut tools (Pack.tool_name pack (chars "plan"))
      (planTool pack_id pack)
    let tools := dictPut tools (Pack.tool_name pack (chars "execute"))
      (executeTool pack_id pack)
    dictPut tools (Pack.tool_name pack (chars "validate"))
      (validateTool pack_id pack)) []

/-! ## Registry loading (server.py lines 164-218) -/

/-- What `PackRegistry.load` observes about one subdirectory of the packs
root: its name, whether it is a directory, and which of the manifest and
the six required artifact files exist, together with their parsed
contents. -/
structure PackSource where
  dirname : List Char
  isDir : Bool
  hasPackJson : Bool
  pack_json : Json
  hasContextSchema : Bool
  context_schema : Json
  hasOutputSchema : Bool
  output_schema : Json
  hasEventsSchema : Bool
  events_schema : Json
  hasPlanPrompt : Bool
  plan_prompt : List Char
  hasExecutePrompt : Bool
  execute_prompt : List Char
  hasValidatePrompt : Bool
  validate_prompt : List Char

/-- The load-time fatal errors: `ValueError(f"Missing required file for
pack {pack_root.name}: {p}")`, carried structurally as the pack directory
name and the offending path. -/
inductive LoadErr where
  | missingFile (packName path : List Char)

/-- The six required files in the order `PackRegistry.load` checks them,
paired with their paths relative to the packs root. -/
def requiredFiles (d : PackSource) : List (Bool × List Char) :=
  [(d.hasContextSchema, d.dirname ++ chars "/schemas/context.schema.json"),
   (d.hasOutputSchema, d.dirname ++ chars "/schemas/output.schema.json"),
   (d.hasEventsSchema, d.dirname ++ chars "/schemas/events.schema.json"),
   (d.hasPlanPrompt, d.dirname ++ chars "/prompts/plan.md"),
   (d.hasExecutePrompt, d.dirname ++ chars "/prompts/execute.md"),
   (d.hasValidatePrompt, d.dirname ++ chars "/prompts/validate.md")]

/-- The first absent required file, if any. -/
def firstMissing (d : PackSource) : Option (List Char) :=
  ((requiredFiles d).find? (fun bp => !bp.1)).map (fun bp => bp.2)

def mkPack (d : PackSource) : Pack :=
  { root := d.dirname, pack_json := d.pack_json,
    context_schema := d.context_schema, output_schema := d.output_schema,
    events_schema := d.events_schema, plan_prompt := d.plan_prompt,
    execute_prompt := d.execute_prompt, validate_prompt := d.validate_prompt }

/-- Lexicographic comparison of names, as Python `sorted` orders the
directory paths. -/
def charListLe : List Char → List Char → Bool
  | [], _ => true
  | _ :: _, [] => false
  | a :: as, b :: bs => if a = b then charListLe as bs else decide (a < b)

def insertSorted (d : PackSource) : List PackSource → List PackSource
  | [] => [d]
  | e :: es =>
    if charListLe d.dirname e.dirname then d :: e :: es else e :: insertSorted d es

def sortByName : List PackSource → List PackSource
  | [] => []
  | d :: ds => insertSorted d (sortByName ds)

/-- The directory loop of `PackRegistry.load`: skip non-directories and
directories without a manifest; abort on the first absent required file;
otherwise build the Pack and key it by its declared identifier (a duplicate
identifier silently overwrites the earlier pack). -/
def loadPacks :
    List PackSource → List (List Char × Pack) →
      Except LoadErr (List (List Char × Pack))
  | [], acc => .ok acc
  | d :: ds, acc =>
    if d.isDir = false then loadPacks ds acc
    else if d.hasPackJson = false then loadPacks ds acc
    else
      match firstMissing d with
      | some path => .error (.missingFile d.dirname path)
      | none =>
        let pack := mkPack d
        loadPacks ds (dictPut acc (Pack.pack_id pack) pack)

structure Registry where
  packs : List (List Char × Pack)
  tools : List (List Char × PackTool)

/-- `PackRegistry.load` over the listing of the packs root: process the
subdirectories in sorted order, then rebuild the tool catalog.  A raised
ValueError is the error branch; no catalog is published then. -/
def load (dirs : List PackSource) : Except LoadErr Registry :=
  match loadPacks (sortByName dirs) [] with
  | .error e => .error e
  | .ok packs => .ok { packs := packs, tools := build_tools packs }

/-! ## Telemetry and the dispatcher branches (server.py lines 372-380,
443-455, 668-717 and 770-838) -/

/-- `make_telemetry_event`; the timestamp `utc_now_iso()` is passed in as
`now`. -/
def make_telemetry_event (pack : Pack) (event_type correlation_id now : List Char)
    (details : Json) : Json :=
  Json.obj
    [(chars "event_type", Json.str event_type),
     (chars "timestamp_iso", Json.str now),
     (chars "pack_id", Json.str (Pack.pack_id pack)),
     (chars "version", Json.str (Pack.version pack)),
     (chars "correlation_id", Json.str correlation_id),
     (chars "details", details)]

/-- The `plan` branch of `handle_call_tool`.  `provider` stands for
`plan_steps_template`, the external artifact generator; its result is the
value of the `plan_steps` key.  The branch also builds a local telemetry
list, which is not part of the response and therefore not modeled. -/
def handle_plan (provider : List (List Char × Json) → Json) (pack : Pack)
    (arguments : List (List Char × Json)) : Json :=
  let required := Pack.required_paths pack
  let missing := missing_required_fields (Json.obj arguments) required
  if missing ≠ [] then
    Json.obj [(chars "needs_context", Json.bool true),
              (chars "missing_fields", Json.arr (missing.map Json.str)),
              (chars "assumptions", Json.arr []),
              (chars "plan_steps", Json.arr [])]
  else
    Json.obj [(chars "needs_context", Json.bool false),
              (chars "missing_fields", Json.arr []),
              (chars "assumptions", Json.arr []),
              (chars "plan_steps", provider arguments)]

/-- `execute_artifacts`.  When no required field is missing, the function
falls through to the pack-operation provider (the heuristic artifact
generator making up the rest of the source function), abstracted here as
`provider`; the timestamp `utc_now_iso()` is passed in as `now`. -/
def execute_artifacts
    (provider : Pack → List (List Char × Json) → List Char → Json)
    (pack : Pack) (context : List (List Char × Json))
    (correlation_id now : List Char) : Json :=
  let required := Pack.required_paths pack
  let missing := missing_required_fields (Json.obj context) required
  if missing ≠ [] then
    Json.obj
      [(chars "needs_context", Json.bool true),
       (chars "missing_fields", Json.arr (missing.map Json.str)),
       (chars "assumptions", Json.arr []),
       (chars "telemetry_events", Json.arr
         [make_telemetry_event pack (chars "pack_loaded") correlation_id now
            (Json.obj [(chars "mode", Json.str (chars "execute"))]),
          make_telemetry_event pack (chars "needs_context") correlation_id now
            (Json.obj [(chars "missing_fields",
                        Json.arr (missing.map Json.str))])])]
  else provider pack context correlation_id

def natChars (n : Nat) : List Char := (Nat.repr n).data

def gateEntry (gate status evidence : List Char) : Json :=
  Json.obj [(chars "gate", Json.str gate),
            (chars "status", Json.str status),
            (chars "evidence", Json.str evidence)]

/-- Gate 1 of `validate_outputs`: needs_context must not be true while
artifacts are present.  Returns (issues, fixes, gate entry) contributed by
this gate. -/
def gateCheck1 (outputs : List (List Char × Json)) :
    List (List Char) × List (List Char) × Json :=
  let needs_context := optTruthy (dictGet outputs (chars "needs_context"))
  let has_artifacts :=
    [chars "activation_definition", chars "event_taxonomy",
     chars "experiment_backlog", chars "prioritized_actions"].any
      (fun k => (dictGet outputs k).isSome)
  if needs_context && has_artifacts then
    ([chars "outputs.needs_context is true but artifacts are present."],
     [chars "If required context is missing, return only needs_context, missing_fields, assumptions, telemetry_events."],
     gateEntry (chars "needs_context_consistency") (chars "fail")
       (chars "needs_context=true and artifacts present"))
  else
    ([], [],
     gateEntry (chars "needs_context_consistency") (chars "pass")
       (chars "needs_context aligns with artifact presence"))

/-- Gate 2 of `validate_outputs`: the activation definition must be a dict
with truthy activation_event_name and criteria. -/
def gateCheck2 (outputs : List (List Char × Json)) :
    List (List Char) × List (List Char) × Json :=
  let failCase :=
    ([chars "activation_definition missing or incomplete."],
     [chars "Provide activation_event_name, criteria[], and time_window_hours."],
     gateEntry (chars "activation_measurable") (chars "fail")
       (chars "activation_definition incomplete"))
  match dictGet outputs (chars "activation_definition") with
  | some (Json.obj af) =>
    if optTruthy (dictGet af (chars "activation_event_name")) &&
        optTruthy (dictGet af (chars "criteria")) then
      ([], [],
       gateEntry (chars "activation_measurable") (chars "pass")
         (chars "activation_event_name and criteria present"))
    else failCase
  | _ => failCase

/-- Gate 3 of `validate_outputs`: at least five experiments, each with a
truthy success_threshold and stopping_rule.  An experiment entry that is
not a dict counts as missing both fields (the source raises on it). -/
def gateCheck3 (outputs : List (List Char × Json)) :
    List (List Char) × List (List Char) × Json :=
  let minimumFail := fun (count : Nat) =>
    ([chars "experiment_backlog must include at least 5 experiments."],
     [chars "Add experiments across UX, prompts, email, pricing/copy, instrumentation."],
     gateEntry (chars "experiment_backlog_minimum") (chars "fail")
       (chars "count=" ++ natChars count))
  match dictGet outputs (chars "experiment_backlog") with
  | some (Json.arr es) =>
    if es.length < 5 then minimumFail es.length
    else
      let bad := es.filter (fun e =>
        !optTruthy (topGet e (chars "success_threshold")) ||
          !optTruthy (topGet e (chars "stopping_rule")))
      if bad.isEmpty then
        ([], [],
         gateEntry (chars "experiment_thresholds") (chars "pass")
           (chars "All experiments include thresholds and stopping rules"))
      else
        ([chars "Some experiments are missing success_threshold or stopping_rule."],
         [chars "Ensure every experiment includes success_threshold and stopping_rule."],
         gateEntry (chars "experiment_thresholds") (chars "fail")
           (chars "missing_fields_in=" ++ natChars bad.length ++ chars " experiments"))
  | _ => minimumFail 0

/-- Gate 4 of `validate_outputs`: the event taxonomy must be a dict whose
events value is a list of at least three events. -/
def gateCheck4 (outputs : List (List Char × Json)) :
    List (List Char) × List (List Char) × Json :=
  let failCase :=
    ([chars "event_taxonomy must include at least 3 events."],
     [chars "Include identify_user, signup, activation, purchase, plus friction/blocker events."],
     gateEntry (chars "event_taxonomy_coverage") (chars "fail")
       (chars "events missing or too few"))
  match dictGet outputs (chars "event_taxonomy") with
  | some (Json.obj tf) =>
    match dictGet tf (chars "events") with
    | some (Json.arr evs) =>
      if evs.length < 3 then failCase
      else
        ([], [],
         gateEntry (chars "event_taxonomy_coverage") (chars "pass")
           (chars "events_count=" ++ natChars evs.length))
    | _ => failCase
  | _ => failCase

/-- `validate_outputs`: run the four gates in order, concatenating their
issue and fix contributions; passed is the emptiness of the issue list.
The pack and context parameters are unused, as in the source. -/
def validate_outputs (pack : Pack) (context outputs : List (List Char × Json)) :
    Json :=
  let c1 := gateCheck1 outputs
  let c2 := gateCheck2 outputs
  let c3 := gateCheck3 outputs
  let c4 := gateCheck4 outputs
  let issues := c1.1 ++ c2.1 ++ c3.1 ++ c4.1
  let fixes := c1.2.1 ++ c2.2.1 ++ c3.2.1 ++ c4.2.1
  let gates := [c1.2.2, c2.2.2, c3.2.2, c4.2.2]
  Json.obj [(chars "passed", Json.bool issues.isEmpty),
            (chars "issues", Json.arr (issues.map Json.str)),
            (chars "fixes", Json.arr (fixes.map Json.str)),
            (chars "quality_gates", Json.arr gates)]

/-- The `validate` branch of `handle_call_tool`: the arguments must expose
both context and outputs as dicts, or the call faults; on the good shape it
routes directly to `validate_outputs`, with no required-field check. -/
def handle_validate (pack : Pack) (arguments : List (List Char × Json)) :
    Except (List Char) Json :=
  match dictGet arguments (chars "context"), dictGet arguments (chars "outputs") with
  | some (Json.obj c), some (Json.obj o) => .ok (validate_outputs pack c o)
  | _, _ => .error (chars "validate requires context and outputs as objects.")

/-! ## Observations used to state the claims -/

/-- No two consecutive underscores anywhere in the list. -/
def noDoubleUnd : List Char → Bool
  | a :: b :: rest => !(a == '_' && b == '_') && noDoubleUnd (b :: rest)
  | _ => true

def headIsUnd (l : List Char) : Bool :=
  match l.head? with
  | some c => c == '_'
  | none => false

def lastIsUnd (l : List Char) : Bool :=
  match l.getLast? with
  | some c => c == '_'
  | none => false

/-- The boolean `passed` field of a validate result. -/
def passedFlag (r : Json) : Option Bool :=
  match topGet r (chars "passed") with
  | some (Json.bool b) => some b
  | _ => none

/-- Whether the `issues` field of a validate result is the empty list. -/
def issuesEmptyFlag (r : Json) : Option Bool :=
  match topGet r (chars "issues") with
  | some (Json.arr l) => some l.isEmpty
  | _ => none

/-- The `status` field of a quality-gate entry. -/
def gateStatus (g : Json) : Option (List Char) :=
  match topGet g (chars "status") with
  | some (Json.str s) => some s
  | _ => none

/-! ## Concrete fixtures -/

/-- The context schema of claim C3: required a and b, with a an
object-typed subschema requiring x. -/
def schemaC3 : Json :=
  Json.obj
    [(chars "type", Json.str (chars "object")),
     (chars "required", Json.arr [Json.str (chars "a"), Json.str (chars "b")]),
     (chars "properties", Json.obj
       [(chars "a", Json.obj
         [(chars "type", Json.str (chars "object")),
          (chars "required", Json.arr [Json.str (chars "x")])])])]

/-- The context value of claim C5: an object a containing x = 1. -/
def ctxC5 : Json :=
  Json.obj [(chars "a", Json.obj [(chars "x", Json.num 1)])]

def pathsC5 : List (List Char) := [chars "$.a.x", chars "$.a.y", chars "$.b"]

/-- A context schema requiring the single top-level field a. -/
def schemaRequiresA : Json :=
  Json.obj
    [(chars "type", Json.str (chars "object")),
     (chars "required", Json.arr [Json.str (chars "a")]),
     (chars "properties", Json.obj [])]

/-- A loaded pack whose context schema requires the field a. -/
def packRequiresA : Pack :=
  { root := chars "demo-pack",
    pack_json := Json.obj [(chars "pack_id", Json.str (chars "demo"))],
    context_schema := schemaRequiresA,
    output_schema := Json.obj [],
    events_schema := Json.obj [],
    plan_prompt := chars "plan prompt",
    execute_prompt := chars "execute prompt",
    validate_prompt := chars "validate prompt" }

/-- A complete pack directory declaring pack_id acme.growth. -/
def srcAcmeDot : PackSource :=
  { dirname := chars "pack-a", isDir := true, hasPackJson := true,
    pack_json := Json.obj [(chars "pack_id", Json.str (chars "acme.growth"))],
    hasContextSchema := true, context_schema := Json.obj [],
    hasOutputSchema := true, output_schema := Json.obj [],
    hasEventsSchema := true, events_schema := Json.obj [],
    hasPlanPrompt := true, plan_prompt := chars "plan prompt",
    hasExecutePrompt := true, execute_prompt := chars "execute prompt",
    hasValidatePrompt := true, validate_prompt := chars "validate prompt" }

/-- A complete pack directory declaring the distinct pack_id acme_growth,
which sanitizes to the same token as acme.growth. -/
def srcAcmeUnd : PackSource :=
  { srcAcmeDot with
    dirname := chars "pack-b",
    pack_json := Json.obj [(chars "pack_id", Json.str (chars "acme_growth"))] }

/-- A pack directory whose prompts/plan.md is absent. -/
def srcMissingPlan : PackSource :=
  { srcAcmeDot with dirname := chars "pack-c", hasPlanPrompt := false }

/-- A subdirectory of the packs root with no pack.json manifest. -/
def srcNoManifest : PackSource :=
  { srcAcmeDot with dirname := chars "stray", hasPackJson := false }

/-- Contiguous-subsequence (substring) test. -/
def containsSeq (pat : List Char) : List Char → Bool
  | [] => pat.isEmpty
  | c :: rest => isPreOf pat (c :: rest) || containsSeq pat rest

/-! ## List lemmas for the codec -/

theorem stripPre_append (a l : List Char) : stripPre a (a ++ l) = some l := by
  induction a with
  | nil => rfl
  | cons c cs ih => simp [stripPre, ih]

theorem isPreOf_iff (p : List Char) :
    ∀ l, isPreOf p l = true ↔ ∃ t, l = p ++ t := by
  induction p with
  | nil => intro l; simp [isPreOf]
  | cons a as ih =>
    intro l
    cases l with
    | nil => simp [isPreOf]
    | cons b bs =>
      simp only [isPreOf, Bool.and_eq_true, decide_eq_true_eq, ih bs,
        List.cons_append]
      constructor
      · rintro ⟨rfl, t, rfl⟩
        exact ⟨t, rfl⟩
      · rintro ⟨t, ht⟩
        injection ht with h1 h2
        exact ⟨h1.symm, t, h2⟩

theorem isSufOf_iff (p l : List Char) :
    isSufOf p l = true ↔ ∃ t, l = t ++ p := by
  rw [isSufOf, isPreOf_iff]
  constructor
  · rintro ⟨t, ht⟩
    refine ⟨t.reverse, ?_⟩
    have h2 := congrArg List.reverse ht
    simpa using h2
  · rintro ⟨t, rfl⟩
    exact ⟨t.reverse, by simp⟩

theorem append_eq_drop (xs ys a b : List Char) (h : xs ++ a = ys ++ b)
    (hl : a.length ≤ b.length) : b.drop (b.length - a.length) = a := by
  have hb : b.take (b.length - a.length) ++ b.drop (b.length - a.length) = b :=
    List.take_append_drop _ _
  rw [← hb, ← List.append_assoc] at h
  have hlen : a.length = (b.drop (b.length - a.length)).length := by
    simp only [List.length_drop]
    omega
  exact ((List.append_inj' h hlen).2).symm

/-- If the tails of `pat` and `base` disagree, then `pat` is not a suffix of
anything that ends in `base`. -/
theorem sufOf_append_ne (pat base : List Char)
    (h : if pat.length ≤ base.length
         then base.drop (base.length - pat.length) ≠ pat
         else pat.drop (pat.length - base.length) ≠ base) :
    ∀ tok, isSufOf pat (tok ++ base) = false := by
  intro tok
  cases hcase : isSufOf pat (tok ++ base) with
  | false => rfl
  | true =>
    exfalso
    obtain ⟨t, ht⟩ := (isSufOf_iff _ _).1 hcase
    by_cases hle : pat.length ≤ base.length
    · rw [if_pos hle] at h
      exact h (append_eq_drop t tok pat base ht.symm hle)
    · rw [if_neg hle] at h
      exact h (append_eq_drop tok t base pat ht (Nat.le_of_lt (Nat.lt_of_not_le hle)))

theorem isSufOf_append_self (a b : List Char) : isSufOf b (a ++ b) = true := by
  rw [isSufOf_iff]
  exact ⟨a, rfl⟩

theorem take_len_append (a b : List Char) :
    (a ++ b).take ((a ++ b).length - b.length) = a := by
  have h : (a ++ b).length - b.length = a.length := by
    simp [List.length_append]
  rw [h, List.take_left]

/-! ## Lemmas about the sanitizer -/

theorem all_dropWhile (p q : Char → Bool) (l : List Char) (h : l.all p = true) :
    (l.dropWhile q).all p = true := by
  induction l with
  | nil => simpa using h
  | cons a as ih =>
    simp only [List.all_cons, Bool.and_eq_true] at h
    by_cases hq : q a = true
    · simpa [List.dropWhile_cons, hq] using ih h.2
    · rw [List.dropWhile_cons, if_neg hq]
      simp only [List.all_cons, Bool.and_eq_true]
      exact ⟨h.1, h.2⟩

theorem dropWhile_head_not (q : Char → Bool) (l : List Char) (c : Char)
    (h : (l.dropWhile q).head? = some c) : q c = false := by
  induction l with
  | nil => simp [List.dropWhile] at h
  | cons a as ih =>
    by_cases hq : q a = true
    · rw [List.dropWhile_cons, if_pos hq] at h
      exact ih h
    · rw [List.dropWhile_cons, if_neg hq] at h
      simp only [List.head?_cons, Option.some.injEq] at h
      subst h
      exact Bool.not_eq_true _ ▸ hq

theorem collapseU_all (p : Char → Bool) :
    ∀ l, l.all p = true → (collapseU l).all p = true := by
  intro l
  induction l with
  | nil => simp [collapseU]
  | cons a as ih =>
    cases as with
    | nil => simp [collapseU]
    | cons b bs =>
      intro h
      simp only [List.all_cons, Bool.and_eq_true] at h
      by_cases hab : a = '_' ∧ b = '_'
      · simp only [collapseU, if_pos hab]
        exact ih (by simp [List.all_cons, h.2.1, h.2.2])
      · simp only [collapseU, if_neg hab, List.all_cons, Bool.and_eq_true]
        exact ⟨h.1, by simpa [List.all_cons] using ih (by simp [List.all_cons, h.2.1, h.2.2])⟩

theorem collapseU_cons (b : Char) (cs : List Char) :
    ∃ t, collapseU (b :: cs) = b :: t := by
  induction cs generalizing b with
  | nil => exact ⟨[], rfl⟩
  | cons c cs ih =>
    by_cases h : b = '_' ∧ c = '_'
    · obtain ⟨t, ht⟩ := ih c
      refine ⟨t, ?_⟩
      simp only [collapseU, if_pos h, ht]
      rw [h.1, h.2]
    · exact ⟨collapseU (c :: cs), by simp only [collapseU, if_neg h]⟩

theorem noDoubleUnd_tail (a : Char) (l : List Char)
    (h : noDoubleUnd (a :: l) = true) : noDoubleUnd l = true := by
  cases l with
  | nil => rfl
  | cons b bs =>
    simp only [noDoubleUnd, Bool.and_eq_true] at h
    exact h.2

theorem noDoubleUnd_append_left (l t : List Char)
    (h : noDoubleUnd (l ++ t) = true) : noDoubleUnd l = true := by
  induction l with
  | nil => rfl
  | cons a as ih =>
    cases as with
    | nil => rfl
    | cons b bs =>
      simp only [List.cons_append, noDoubleUnd, Bool.and_eq_true] at h
      have h2 : noDoubleUnd (b :: bs) = true := ih (by simpa using h.2)
      simp only [noDoubleUnd, Bool.and_eq_true]
      exact ⟨h.1, h2⟩

theorem noDoubleUnd_append_right (t l : List Char)
    (h : noDoubleUnd (t ++ l) = true) : noDoubleUnd l = true := by
  induction t with
  | nil => simpa using h
  | cons a ts ih =>
    exact ih (noDoubleUnd_tail a (ts ++ l) (by simpa using h))

theorem collapseU_noDoubleUnd : ∀ l, noDoubleUnd (collapseU l) = true := by
  intro l
  induction l with
  | nil => rfl
  | cons a as ih =>
    cases as with
    | nil => rfl
    | cons b bs =>
      by_cases hab : a = '_' ∧ b = '_'
      · simpa only [collapseU, if_pos hab] using ih
      · simp only [collapseU, if_neg hab]
        obtain ⟨t, ht⟩ := collapseU_cons b bs
        rw [ht]
        simp only [noDoubleUnd, Bool.and_eq_true]
        constructor
        · rw [Bool.not_eq_true']
          rcases not_and_or.mp hab with h | h <;> simp [beq_iff_eq, h]
        · rw [← ht]
          exact ih

theorem reverse_dropWhile_decomp (q : Char → Bool) (y : List Char) :
    y = (y.reverse.dropWhile q).reverse ++ (y.reverse.takeWhile q).reverse := by
  conv_lhs => rw [← List.reverse_reverse y,
    ← List.takeWhile_append_dropWhile q y.reverse]
  rw [List.reverse_append]

theorem stripUnd_noDoubleUnd (l : List Char) (h : noDoubleUnd l = true) :
    noDoubleUnd (stripUnd l) = true := by
  have hY : noDoubleUnd (l.dropWhile (fun c => decide (c = '_'))) = true := by
    apply noDoubleUnd_append_right (l.takeWhile (fun c => decide (c = '_')))
    rw [List.takeWhile_append_dropWhile]
    exact h
  unfold stripUnd
  apply noDoubleUnd_append_left _
    ((l.dropWhile (fun c => decide (c = '_'))).reverse.takeWhile
      (fun c => decide (c = '_'))).reverse
  rw [← reverse_dropWhile_decomp]
  exact hY

theorem stripUnd_all (p : Char → Bool) (l : List Char) (h : l.all p = true) :
    (stripUnd l).all p = true := by
  unfold stripUnd
  rw [List.all_reverse]
  apply all_dropWhile
  rw [List.all_reverse]
  exact all_dropWhile _ _ _ h

theorem stripUnd_head (l : List Char) : headIsUnd (stripUnd l) = false := by
  cases hz : stripUnd l with
  | nil => simp [headIsUnd]
  | cons c t =>
    have hz2 : (l.dropWhile (fun c => decide (c = '_'))).head? = some c := by
      rw [reverse_dropWhile_decomp (fun c => decide (c = '_'))
        (l.dropWhile (fun c => decide (c = '_')))]
      have he : stripUnd l =
          ((l.dropWhile (fun c => decide (c = '_'))).reverse.dropWhile
            (fun c => decide (c = '_'))).reverse := rfl
      rw [← he, hz]
      simp
    have hq := dropWhile_head_not (fun c => decide (c = '_')) l c hz2
    simp only [headIsUnd, hz, List.head?_cons]
    simpa using hq

theorem stripUnd_last (l : List Char) : lastIsUnd (stripUnd l) = false := by
  unfold stripUnd lastIsUnd
  rw [List.getLast?_reverse]
  cases hw : ((l.dropWhile (fun c => decide (c = '_'))).reverse.dropWhile
      (fun c => decide (c = '_'))).head? with
  | none => rfl
  | some c =>
    have hq := dropWhile_head_not (fun c => decide (c = '_'))
      (l.dropWhile (fun c => decide (c = '_'))).reverse c hw
    simpa using hq

theorem sanitize_map_safe (v : List Char) :
    ((v.map (fun c => if c = '.' then '_' else c)).map
      (fun c => if isSafeChar c then c else '_')).all isSafeChar = true := by
  rw [List.all_eq_true]
  intro x hx
  rw [List.mem_map] at hx
  obtain ⟨a, _, rfl⟩ := hx
  by_cases h : isSafeChar a = true
  · simpa [h]
  · rw [if_neg h]
    decide

theorem sanitize_all_safe (v : List Char) :
    (sanitize_tool_token v).all isSafeChar = true := by
  unfold sanitize_tool_token
  exact stripUnd_all _ _ (collapseU_all _ _ (sanitize_map_safe v))

theorem sanitize_noDoubleUnd (v : List Char) :
    noDoubleUnd (sanitize_tool_token v) = true := by
  unfold sanitize_tool_token
  exact stripUnd_noDoubleUnd _ (collapseU_noDoubleUnd _)

theorem sanitize_headIsUnd (v : List Char) :
    headIsUnd (sanitize_tool_token v) = false := by
  unfold sanitize_tool_token
  exact stripUnd_head _

theorem sanitize_lastIsUnd (v : List Char) :
    lastIsUnd (sanitize_tool_token v) = false := by
  unfold sanitize_tool_token
  exact stripUnd_last _

/-! ## Lemmas about registry loading -/

theorem mem_insertSorted (a d : PackSource) (l : List PackSource) :
    a ∈ insertSorted d l ↔ a = d ∨ a ∈ l := by
  induction l with
  | nil => simp [insertSorted]
  | cons e es ih =>
    by_cases h : charListLe d.dirname e.dirname = true
    · simp [insertSorted, h]
    · simp [insertSorted, h, ih]
      tauto

theorem mem_sortByName (a : PackSource) (l : List PackSource) :
    a ∈ sortByName l ↔ a ∈ l := by
  induction l with
  | nil => simp [sortByName]
  | cons d ds ih => simp [sortByName, mem_insertSorted, ih]

/-- If some processed directory is missing a required file, the directory
loop aborts with the error of the first such directory it reaches. -/
theorem loadPacks_error_of_missing (l : List PackSource) :
    ∀ acc : List (List Char × Pack),
      (∃ d, d ∈ l ∧ d.isDir = true ∧ d.hasPackJson = true ∧
        (firstMissing d).isSome = true) →
      ∃ d2 path, d2 ∈ l ∧ d2.isDir = true ∧ d2.hasPackJson = true ∧
        firstMissing d2 = some path ∧
        loadPacks l acc = Except.error (LoadErr.missingFile d2.dirname path) := by
  induction l with
  | nil =>
    rintro acc ⟨d, hd, -⟩
    simp at hd
  | cons d0 ds ih =>
    rintro acc ⟨d, hd, hdir, hjson, hmiss⟩
    cases hdir0 : d0.isDir with
    | false =>
      have hrw : loadPacks (d0 :: ds) acc = loadPacks ds acc := by
        simp [loadPacks, hdir0]
      rcases List.mem_cons.mp hd with rfl | hd2
      · rw [hdir0] at hdir
        simp at hdir
      · obtain ⟨d2, path, hmem, h1, h2, h3, h4⟩ :=
          ih acc ⟨d, hd2, hdir, hjson, hmiss⟩
        exact ⟨d2, path, List.mem_cons_of_mem _ hmem, h1, h2, h3,
          by rw [hrw]; exact h4⟩
    | true =>
      cases hjson0 : d0.hasPackJson with
      | false =>
        have hrw : loadPacks (d0 :: ds) acc = loadPacks ds acc := by
          simp [loadPacks, hdir0, hjson0]
        rcases List.mem_cons.mp hd with rfl | hd2
        · rw [hjson0] at hjson
          simp at hjson
        · obtain ⟨d2, path, hmem, h1, h2, h3, h4⟩ :=
            ih acc ⟨d, hd2, hdir, hjson, hmiss⟩
          exact ⟨d2, path, List.mem_cons_of_mem _ hmem, h1, h2, h3,
            by rw [hrw]; exact h4⟩
      | true =>
        cases hfm : firstMissing d0 with
        | some path =>
          refine ⟨d0, path, List.mem_cons_self _ _, hdir0, hjson0, hfm, ?_⟩
          simp [loadPacks, hdir0, hjson0, hfm]
        | none =>
          have hrw : loadPacks (d0 :: ds) acc =
              loadPacks ds (dictPut acc (Pack.pack_id (mkPack d0)) (mkPack d0)) := by
            simp [loadPacks, hdir0, hjson0, hfm]
          rcases List.mem_cons.mp hd with rfl | hd2
          · rw [hfm] at hmiss
            simp at hmiss
          · obtain ⟨d2, path, hmem, h1, h2, h3, h4⟩ :=
              ih _ ⟨d, hd2, hdir, hjson, hmiss⟩
            exact ⟨d2, path, List.mem_cons_of_mem _ hmem, h1, h2, h3,
              by rw [hrw]; exact h4⟩

/-! ## Claims -/

/-- C3 counterexample: on the schema with required a and b where
properties.a is object-typed with required x, the extractor does NOT
return the claimed order $.a, $.b, $.a.x. -/
theorem c3_extract_order_counterexample :
    dotted_required_paths schemaFuel schemaC3 (chars "$") ≠
      [chars "$.a", chars "$.b", chars "$.a.x"] := by decide

/-- C3 (amended): the extractor returns exactly $.a, $.a.x, $.b in that
order: recursion is depth-first, so the paths of a required key's object
subschema follow that key immediately, before later sibling keys. -/
theorem c3_extract_depth_first :
    dotted_required_paths schemaFuel schemaC3 (chars "$") =
      [chars "$.a", chars "$.a.x", chars "$.b"] := by decide

/-- C5: the missing-field finder returns exactly $.a.y, $.b on context
a.x = 1 with required paths $.a.x, $.a.y, $.b; a present-but-null leaf is
reported missing; and the output is a sublist of the required paths, hence
in their order. -/
theorem c5_missing_fields_spec :
    missing_required_fields ctxC5 pathsC5 = [chars "$.a.y", chars "$.b"] ∧
    (∀ (context : Json) (paths : List (List Char)) (p : List Char),
      p ∈ paths → get_by_dotted_path context p = (true, Json.null) →
      p ∈ missing_required_fields context paths) ∧
    (∀ (context : Json) (paths : List (List Char)),
      (missing_required_fields context paths).Sublist paths) := by
  refine ⟨by decide, ?_, ?_⟩
  · intro context paths p hp hnull
    unfold missing_required_fields
    apply List.mem_filter.mpr
    refine ⟨hp, ?_⟩
    rw [hnull]
    rfl
  · intro context paths
    exact List.filter_sublist _

/-- Witness for C5: a present-but-null leaf is reported missing on a
concrete context. -/
theorem c5_missing_fields_spec_witness :
    chars "$.n" ∈ missing_required_fields
      (Json.obj [(chars "n", Json.null)]) [chars "$.n"] :=
  c5_missing_fields_spec.2.1 (Json.obj [(chars "n", Json.null)]) [chars "$.n"]
    (chars "$.n") (List.mem_cons_self _ _) rfl

/-- C8: every sanitizer output uses only characters from [A-Za-z0-9_-],
never starts or ends with an underscore, and never contains two
consecutive underscores; the all-dots identifier sanitizes to the empty
token, so its execute tool name is pack____execute, which contains four
consecutive underscores. -/
theorem c8_sanitize_invariants :
    (∀ v : List Char,
      (sanitize_tool_token v).all isSafeChar = true ∧
      headIsUnd (sanitize_tool_token v) = false ∧
      lastIsUnd (sanitize_tool_token v) = false ∧
      noDoubleUnd (sanitize_tool_token v) = true) ∧
    sanitize_tool_token (chars "...") = [] ∧
    make_tool_name (chars "...") (chars "execute") = chars "pack____execute" ∧
    containsSeq (chars "____") (make_tool_name (chars "...") (chars "execute")) = true := by
  refine ⟨fun v => ⟨sanitize_all_safe v, sanitize_headIsUnd v,
    sanitize_lastIsUnd v, sanitize_noDoubleUnd v⟩, by decide, by decide, by decide⟩

/-- C2 evidence: loading two complete packs whose distinct identifiers
acme.growth and acme_growth sanitize to the same token SUCCEEDS, and the
catalog build silently merges them: both packs are registered but only
five tools exist, and the colliding execute tool name is owned by the
later-loaded pack acme_growth. -/
theorem c2_sanitize_collision_merges_silently :
    (load [srcAcmeDot, srcAcmeUnd]).toOption.map
      (fun r => (r.packs.length, r.tools.length)) = some (2, 5) ∧
    ((load [srcAcmeDot, srcAcmeUnd]).toOption.bind
      (fun r => (dictGet r.tools (chars "pack__acme_growth__execute")).map
        PackTool.pack_id)) = some (chars "acme_growth") :=
  ⟨by decide, by decide⟩

/-- C10: a subdirectory with no pack.json manifest is silently skipped by
the directory loop of registry load: no error is raised for it, no pack is
registered from it, and processing of the remaining directories proceeds
exactly as if the directory were absent. -/
theorem c10_no_manifest_skipped (l1 l2 : List PackSource)
    (acc : List (List Char × Pack)) (d : PackSource)
    (hdir : d.isDir = true) (hjson : d.hasPackJson = false) :
    loadPacks (l1 ++ d :: l2) acc = loadPacks (l1 ++ l2) acc := by
  induction l1 generalizing acc with
  | nil => simp [loadPacks, hdir, hjson]
  | cons e es ih =>
    cases he : e.isDir with
    | false => simp [loadPacks, he, ih]
    | true =>
      cases hej : e.hasPackJson with
      | false => simp [loadPacks, he, hej, ih]
      | true =>
        cases hfm : firstMissing e with
        | some path => simp [loadPacks, he, hej, hfm]
        | none => simp [loadPacks, he, hej, hfm, ih]

/-- Witness for C10 at a concrete manifest-less directory. -/
theorem c10_no_manifest_skipped_witness :
    loadPacks ([] ++ srcNoManifest :: []) [] = loadPacks ([] ++ []) [] :=
  c10_no_manifest_skipped [] [] [] srcNoManifest rfl rfl

/-- C6: whenever some pack directory (a real directory with a manifest) is
missing one of the six required artifact files, the whole registry load
fails: it returns the missing-file error of such a directory, naming that
directory (the owning pack) and the exact missing path, and no catalog is
produced, so the partial pack is never registered. -/
theorem c6_missing_file_fails_load (dirs : List PackSource)
    (h : ∃ d, d ∈ dirs ∧ d.isDir = true ∧ d.hasPackJson = true ∧
      (firstMissing d).isSome = true) :
    ∃ d2 path, d2 ∈ dirs ∧ d2.isDir = true ∧ d2.hasPackJson = true ∧
      firstMissing d2 = some path ∧
      load dirs = Except.error (LoadErr.missingFile d2.dirname path) := by
  obtain ⟨d, hd, h1, h2, h3⟩ := h
  obtain ⟨d2, path, hmem, g1, g2, g3, g4⟩ :=
    loadPacks_error_of_missing (sortByName dirs) []
      ⟨d, (mem_sortByName d dirs).mpr hd, h1, h2, h3⟩
  refine ⟨d2, path, (mem_sortByName d2 dirs).mp hmem, g1, g2, g3, ?_⟩
  unfold load
  rw [g4]

/-- Witness for C6: a directory whose prompts/plan.md is absent makes the
whole load fail with an error naming that pack and path. -/
theorem c6_missing_file_fails_load_witness :
    ∃ d2 path, d2 ∈ [srcMissingPlan] ∧ d2.isDir = true ∧
      d2.hasPackJson = true ∧ firstMissing d2 = some path ∧
      load [srcMissingPlan] = Except.error (LoadErr.missingFile d2.dirname path) :=
  c6_missing_file_fails_load [srcMissingPlan]
    ⟨srcMissingPlan, List.mem_cons_self _ _, rfl, rfl, rfl⟩

/-- C4: on a context missing at least one required path, both the plan
branch and execute_artifacts return the short-circuit response with
needs_context true and missing_fields exactly the list computed by
missing_required_fields, and the artifact-generating provider is never
invoked: the responses below are stated as concrete values in which the
universally quantified providers do not occur. -/
theorem c4_missing_context_short_circuits
    (planProv : List (List Char × Json) → Json)
    (execProv : Pack → List (List Char × Json) → List Char → Json)
    (pack : Pack) (args : List (List Char × Json)) (cid now : List Char)
    (h : missing_required_fields (Json.obj args) (Pack.required_paths pack) ≠ []) :
    handle_plan planProv pack args =
      Json.obj [(chars "needs_context", Json.bool true),
        (chars "missing_fields", Json.arr
          ((missing_required_fields (Json.obj args)
            (Pack.required_paths pack)).map Json.str)),
        (chars "assumptions", Json.arr []),
        (chars "plan_steps", Json.arr [])] ∧
    execute_artifacts execProv pack args cid now =
      Json.obj [(chars "needs_context", Json.bool true),
        (chars "missing_fields", Json.arr
          ((missing_required_fields (Json.obj args)
            (Pack.required_paths pack)).map Json.str)),
        (chars "assumptions", Json.arr []),
        (chars "telemetry_events", Json.arr
          [make_telemetry_event pack (chars "pack_loaded") cid now
            (Json.obj [(chars "mode", Json.str (chars "execute"))]),
           make_telemetry_event pack (chars "needs_context") cid now
            (Json.obj [(chars "missing_fields", Json.arr
              ((missing_required_fields (Json.obj args)
                (Pack.required_paths pack)).map Json.str))])])] := by
  constructor
  · unfold handle_plan
    rw [if_pos h]
  · unfold execute_artifacts
    rw [if_pos h]

/-- Witness for C4: a pack requiring $.a, called with an empty context. -/
theorem c4_missing_context_short_circuits_witness :
    handle_plan (fun _ => Json.null) packRequiresA [] =
      Json.obj [(chars "needs_context", Json.bool true),
        (chars "missing_fields", Json.arr
          ((missing_required_fields (Json.obj [])
            (Pack.required_paths packRequiresA)).map Json.str)),
        (chars "assumptions", Json.arr []),
        (chars "plan_steps", Json.arr [])] ∧
    missing_required_fields (Json.obj []) (Pack.required_paths packRequiresA) =
      [chars "$.a"] :=
  ⟨(c4_missing_context_short_circuits (fun _ => Json.null)
      (fun _ _ _ => Json.null) packRequiresA [] (chars "cid") (chars "now")
      (by decide)).1,
   by decide⟩

/-- C7: if the validate call arguments do not expose both context and
outputs as objects, the call faults with the bad-shape error; when the
shape is correct, the call routes straight to validate_outputs on whatever
was supplied, with no required-field check against the context schema (the
first part holds with no hypothesis about missing required fields). -/
theorem c7_validate_shape :
    (∀ (pack : Pack) (args : List (List Char × Json))
        (c o : List (List Char × Json)),
      dictGet args (chars "context") = some (Json.obj c) →
      dictGet args (chars "outputs") = some (Json.obj o) →
      handle_validate pack args = Except.ok (validate_outputs pack c o)) ∧
    (∀ (pack : Pack) (args : List (List Char × Json)),
      ((∀ c, dictGet args (chars "context") ≠ some (Json.obj c)) ∨
       (∀ o, dictGet args (chars "outputs") ≠ some (Json.obj o))) →
      ∃ e, handle_validate pack args = Except.error e) := by
  constructor
  · intro pack args c o hc ho
    unfold handle_validate
    rw [hc, ho]
  · intro pack args h
    unfold handle_validate
    cases hc : dictGet args (chars "context") with
    | none => exact ⟨_, rfl⟩
    | some jc =>
      cases ho : dictGet args (chars "outputs") with
      | none =>
        cases jc <;> exact ⟨_, rfl⟩
      | some jo =>
        cases jc with
        | obj c =>
          cases jo with
          | obj o =>
            exfalso
            rcases h with h2 | h2
            · exact h2 c hc
            · exact h2 o ho
          | null => exact ⟨_, rfl⟩
          | bool b => exact ⟨_, rfl⟩
          | num n => exact ⟨_, rfl⟩
          | str s => exact ⟨_, rfl⟩
          | arr es => exact ⟨_, rfl⟩
        | null => exact ⟨_, rfl⟩
        | bool b => exact ⟨_, rfl⟩
        | num n => exact ⟨_, rfl⟩
        | str s => exact ⟨_, rfl⟩
        | arr es => exact ⟨_, rfl⟩

/-- Witness for C7: a well-shaped call routes to validate_outputs even
though the supplied context is missing every required field of the pack,
and an ill-shaped call (outputs not an object) faults. -/
theorem c7_validate_shape_witness :
    handle_validate packRequiresA
        [(chars "context", Json.obj []), (chars "outputs", Json.obj [])] =
      Except.ok (validate_outputs packRequiresA [] []) ∧
    ∃ e, handle_validate packRequiresA
        [(chars "context", Json.obj []), (chars "outputs", Json.null)] =
      Except.error e :=
  ⟨c7_validate_shape.1 packRequiresA
      [(chars "context", Json.obj []), (chars "outputs", Json.obj [])] [] []
      rfl rfl,
   c7_validate_shape.2 packRequiresA
      [(chars "context", Json.obj []), (chars "outputs", Json.null)]
      (Or.inr (fun o h => by
        simp only [dictGet, if_neg (show ¬chars "context" = chars "outputs" by decide)] at h
        simp at h))⟩

/-! ## Lemmas for the validate result shape -/

theorem gateStatus_gateEntry (g s e : List Char) :
    gateStatus (gateEntry g s e) = some s := rfl

theorem passedFlag_validate (pack : Pack) (context outputs : List (List Char × Json)) :
    passedFlag (validate_outputs pack context outputs) =
      some ((gateCheck1 outputs).1 ++ (gateCheck2 outputs).1 ++
        (gateCheck3 outputs).1 ++ (gateCheck4 outputs).1).isEmpty := rfl

theorem issuesEmptyFlag_validate (pack : Pack)
    (context outputs : List (List Char × Json)) :
    issuesEmptyFlag (validate_outputs pack context outputs) =
      some (((gateCheck1 outputs).1 ++ (gateCheck2 outputs).1 ++
        (gateCheck3 outputs).1 ++ (gateCheck4 outputs).1).map Json.str).isEmpty := rfl

theorem isEmpty_map_str (l : List (List Char)) :
    (l.map Json.str).isEmpty = l.isEmpty := by
  cases l <;> rfl

/-- C9: the validate result's passed flag is true exactly when its issues
list is empty, and each of the four quality-gate entries carries status
pass exactly when that gate contributed no issue. -/
theorem c9_validate_consistency (pack : Pack)
    (context outputs : List (List Char × Json)) :
    passedFlag (validate_outputs pack context outputs) =
      issuesEmptyFlag (validate_outputs pack context outputs) ∧
    gateStatus (gateCheck1 outputs).2.2 =
      some (if (gateCheck1 outputs).1.isEmpty then chars "pass" else chars "fail") ∧
    gateStatus (gateCheck2 outputs).2.2 =
      some (if (gateCheck2 outputs).1.isEmpty then chars "pass" else chars "fail") ∧
    gateStatus (gateCheck3 outputs).2.2 =
      some (if (gateCheck3 outputs).1.isEmpty then chars "pass" else chars "fail") ∧
    gateStatus (gateCheck4 outputs).2.2 =
      some (if (gateCheck4 outputs).1.isEmpty then chars "pass" else chars "fail") := by
  refine ⟨?_, ?_, ?_, ?_, ?_⟩
  · rw [passedFlag_validate, issuesEmptyFlag_validate, isEmpty_map_str]
  · simp only [gateCheck1]
    rcases Bool.eq_false_or_eq_true
      (optTruthy (dictGet outputs (chars "needs_context")) &&
        [chars "activation_definition", chars "event_taxonomy",
         chars "experiment_backlog", chars "prioritized_actions"].any
          (fun k => (dictGet outputs k).isSome)) with hb | hb <;>
      simp only [hb] <;> rfl
  · simp only [gateCheck2]
    rcases Option.eq_none_or_eq_some
        (dictGet outputs (chars "activation_definition")) with hact | ⟨j, hact⟩
    · simp only [hact]
      rfl
    · cases j with
      | obj af =>
        simp only [hact]
        rcases Bool.eq_false_or_eq_true
          (optTruthy (dictGet af (chars "activation_event_name")) &&
            optTruthy (dictGet af (chars "criteria"))) with hb | hb <;>
          simp only [hb] <;> rfl
      | null => simp only [hact]; rfl
      | bool b => simp only [hact]; rfl
      | num n => simp only [hact]; rfl
      | str s => simp only [hact]; rfl
      | arr es => simp only [hact]; rfl
  · simp only [gateCheck3]
    rcases Option.eq_none_or_eq_some
        (dictGet outputs (chars "experiment_backlog")) with hexp | ⟨j, hexp⟩
    · simp only [hexp]
      rfl
    · cases j with
      | arr es =>
        simp only [hexp]
        by_cases h5 : es.length < 5
        · rw [if_pos h5]
          rfl
        · rw [if_neg h5]
          rcases Bool.eq_false_or_eq_true ((es.filter (fun e =>
            !optTruthy (topGet e (chars "success_threshold")) ||
              !optTruthy (topGet e (chars "stopping_rule")))).isEmpty) with hb | hb <;>
            simp only [hb] <;> rfl
      | null => simp only [hexp]; rfl
      | bool b => simp only [hexp]; rfl
      | num n => simp only [hexp]; rfl
      | str s => simp only [hexp]; rfl
      | obj fs => simp only [hexp]; rfl
  · simp only [gateCheck4]
    rcases Option.eq_none_or_eq_some
        (dictGet outputs (chars "event_taxonomy")) with htax | ⟨j, htax⟩
    · simp only [htax]
      rfl
    · cases j with
      | obj tf =>
        rcases Option.eq_none_or_eq_some
            (dictGet tf (chars "events")) with hev | ⟨j2, hev⟩
        · simp only [htax, hev]
          rfl
        · cases j2 with
          | arr evs =>
            simp only [htax, hev]
            by_cases h3 : evs.length < 3
            · rw [if_pos h3]
              rfl
            · rw [if_neg h3]
              rfl
          | null => simp only [htax, hev]; rfl
          | bool b => simp only [htax, hev]; rfl
          | num n => simp only [htax, hev]; rfl
          | str s => simp only [htax, hev]; rfl
          | obj fs2 => simp only [htax, hev]; rfl
      | null => simp only [htax]; rfl
      | bool b => simp only [htax]; rfl
      | num n => simp only [htax]; rfl
      | str s => simp only [htax]; rfl
      | arr es => simp only [htax]; rfl

/-! ## C1: the codec roundtrip -/

/-- Plumbing for the roundtrip: once the method scan is known to find
exactly the encoded operation kind, decoding an encoded name against the
one-pack registry recovers the pack id and kind, provided the sanitized
token is nonempty. -/
theorem parse_make_eq (p k : List Char)
    (hfind : methodNames.find? (fun m => isSufOf (chars "__" ++ m)
      (sanitize_tool_token p ++ (chars "__" ++ k))) = some k)
    (hp : sanitize_tool_token p ≠ []) :
    parse_pack_tool_name (make_tool_name p k) [p] = some (p, k) := by
  have hsafe := sanitize_all_safe p
  have hassoc : make_tool_name p k =
      chars "pack__" ++ (sanitize_tool_token p ++ (chars "__" ++ k)) := by
    simp [make_tool_name, List.append_assoc]
  have hstrip : stripPre (chars "pack__") (make_tool_name p k) =
      some (sanitize_tool_token p ++ (chars "__" ++ k)) := by
    rw [hassoc]
    exact stripPre_append _ _
  have hlen : k.length + 2 = (chars "__" ++ k).length := by
    rw [List.length_append]
    have h2 : (chars "__").length = 2 := rfl
    rw [h2]
    omega
  have hspack : (sanitize_tool_token p ++ (chars "__" ++ k)).take
      ((sanitize_tool_token p ++ (chars "__" ++ k)).length - (k.length + 2)) =
      sanitize_tool_token p := by
    rw [hlen]
    exact take_len_append _ _
  unfold parse_pack_tool_name
  simp only [hstrip, hfind]
  rw [hspack, if_pos ⟨hp, hsafe⟩]
  rw [List.find?_cons_of_pos _ (by simp)]

/-- C1 counterexample: the all-dots pack identifier sanitizes to the empty
token, its encoded execute tool name fails the decode regex (the token
part must be nonempty), so decoding returns nothing instead of the
identifier and kind. -/
theorem c1_empty_token_counterexample :
    parse_pack_tool_name (make_tool_name (chars "...") (chars "execute"))
        [chars "..."] = none ∧
    parse_pack_tool_name (make_tool_name (chars "...") (chars "execute"))
        [chars "..."] ≠ some (chars "...", chars "execute") :=
  ⟨by decide, by decide⟩

/-- C1 (amended): for every pack identifier whose sanitized token is
nonempty and every operation kind among the five, decoding the encoded
tool name against a registry whose only pack identifier is that pack
returns exactly the identifier and the kind; in particular acme.growth
encodes for execute to pack__acme_growth__execute, which decodes back to
(acme.growth, execute). -/
theorem c1_encode_decode_roundtrip (p k : List Char) (hk : k ∈ methodNames)
    (hp : sanitize_tool_token p ≠ []) :
    parse_pack_tool_name (make_tool_name p k) [p] = some (p, k) := by
  simp only [methodNames, List.mem_cons, List.not_mem_nil, or_false] at hk
  rcases hk with rfl | rfl | rfl | rfl | rfl
  · -- describe
    have h2 := isSufOf_append_self (sanitize_tool_token p)
      (chars "__" ++ chars "describe")
    apply parse_make_eq _ _ ?_ hp
    simp only [methodNames, List.find?, h2]
  · -- requirements
    have h1 := sufOf_append_ne (chars "__" ++ chars "describe")
      (chars "__" ++ chars "requirements") (by decide) (sanitize_tool_token p)
    have h2 := isSufOf_append_self (sanitize_tool_token p)
      (chars "__" ++ chars "requirements")
    apply parse_make_eq _ _ ?_ hp
    simp only [methodNames, List.find?, h1, h2]
  · -- plan
    have h1 := sufOf_append_ne (chars "__" ++ chars "describe")
      (chars "__" ++ chars "plan") (by decide) (sanitize_tool_token p)
    have h2 := sufOf_append_ne (chars "__" ++ chars "requirements")
      (chars "__" ++ chars "plan") (by decide) (sanitize_tool_token p)
    have h3 := isSufOf_append_self (sanitize_tool_token p)
      (chars "__" ++ chars "plan")
    apply parse_make_eq _ _ ?_ hp
    simp only [methodNames, List.find?, h1, h2, h3]
  · -- execute
    have h1 := sufOf_append_ne (chars "__" ++ chars "describe")
      (chars "__" ++ chars "execute") (by decide) (sanitize_tool_token p)
    have h2 := sufOf_append_ne (chars "__" ++ chars "requirements")
      (chars "__" ++ chars "execute") (by decide) (sanitize_tool_token p)
    have h3 := sufOf_append_ne (chars "__" ++ chars "plan")
      (chars "__" ++ chars "execute") (by decide) (sanitize_tool_token p)
    have h4 := isSufOf_append_self (sanitize_tool_token p)
      (chars "__" ++ chars "execute")
    apply parse_make_eq _ _ ?_ hp
    simp only [methodNames, List.find?, h1, h2, h3, h4]
  · -- validate
    have h1 := sufOf_append_ne (chars "__" ++ chars "describe")
      (chars "__" ++ chars "validate") (by decide) (sanitize_tool_token p)
    have h2 := sufOf_append_ne (chars "__" ++ chars "requirements")
      (chars "__" ++ chars "validate") (by decide) (sanitize_tool_token p)
    have h3 := sufOf_append_ne (chars "__" ++ chars "plan")
      (chars "__" ++ chars "validate") (by decide) (sanitize_tool_token p)
    have h4 := sufOf_append_ne (chars "__" ++ chars "execute")
      (chars "__" ++ chars "validate") (by decide) (sanitize_tool_token p)
    have h5 := isSufOf_append_self (sanitize_tool_token p)
      (chars "__" ++ chars "validate")
    apply parse_make_eq _ _ ?_ hp
    simp only [methodNames, List.find?, h1, h2, h3, h4, h5]

/-- Witness for C1 at acme.growth and execute: the end-to-end example of
the claim. -/
theorem c1_encode_decode_roundtrip_witness :
    parse_pack_tool_name (make_tool_name (chars "acme.growth") (chars "execute"))
      [chars "acme.growth"] = some (chars "acme.growth", chars "execute") :=
  c1_encode_decode_roundtrip (chars "acme.growth") (chars "execute")
    (by decide) (by decide)
